import Mathlib

/-
  Verification of the form-validation pipeline of the
  laa-express-typescript-template repository.

  The development shallowly embeds the validation code of
  `src/middlewares/personSchema.ts`, `src/helpers/ValidationErrorHelpers.ts`
  and `src/helpers/dataTransformers.ts`.  JavaScript dynamic values are
  modelled by the inductive type `JSValue`; JavaScript numbers are modelled
  by `Int` (all numbers appearing in this pipeline are integral).
  External library behaviour (express-validator value coercion,
  validator.js `isDate`) is modelled explicitly and the modelling scope is
  documented at each definition.
-/

/-- Model of a dynamically typed JavaScript value as it appears in a parsed
request body or session object. -/
inductive JSValue where
  | vUndefined : JSValue
  | vNull : JSValue
  | vStr : String → JSValue
  | vNum : Int → JSValue
  | vBool : Bool → JSValue
  | vArr : List JSValue → JSValue
  | vObj : List (String × JSValue) → JSValue

open JSValue

/- ---------------------------------------------------------------------
   Models of JavaScript string primitives
   --------------------------------------------------------------------- -/

/-- Model of `String.prototype.trim` (drops leading and trailing
whitespace). -/
def jsTrim (s : String) : String :=
  String.mk (((s.data.dropWhile Char.isWhitespace).reverse.dropWhile Char.isWhitespace).reverse)

/-- Model of `String.prototype.toLowerCase` (ASCII case folding suffices
for every string compared by this pipeline). -/
def jsToLower (s : String) : String :=
  String.mk (s.data.map Char.toLower)

/-- Model of `String.prototype.padStart(width, pad)`. -/
def jsPadStart (s : String) (width : Nat) (pad : Char) : String :=
  if width ≤ s.length then s
  else String.mk (List.replicate (width - s.length) pad) ++ s

/-- Splits a character list at every occurrence of the delimiter `c`
(the accumulator holds the current chunk in reverse). -/
def splitAtChar (c : Char) : List Char → List Char → List (List Char)
  | [], acc => [acc.reverse]
  | x :: xs, acc =>
    if x = c then acc.reverse :: splitAtChar c xs []
    else splitAtChar c xs (x :: acc)

/-- Numeric value of a list of decimal digit characters. -/
def digitsToNat (cs : List Char) : Nat :=
  cs.foldl (fun a c => a * 10 + (c.toNat - 48)) 0

/-- Model of `parseInt(s, 10)` on an already-trimmed string: an optional
sign followed by the longest decimal-digit run; `none` models `NaN`.
(Every call site in the source trims the string first, so leading
whitespace handling is not needed.) -/
def jsParseInt (s : String) : Option Int :=
  let signed : Bool × List Char :=
    match s.data with
    | '-' :: r => (true, r)
    | '+' :: r => (false, r)
    | r => (false, r)
  let digits := signed.2.takeWhile Char.isDigit
  if digits.isEmpty then none
  else
    let n : Nat := digitsToNat digits
    some (if signed.1 then -(n : Int) else (n : Int))

mutual

/-- Model of the JavaScript `String(value)` conversion ("natural string
form"): arrays join their converted elements with commas (nullish elements
become empty), plain objects give `"[object Object]"`. -/
def jsStringConv : JSValue → String
  | .vUndefined => "undefined"
  | .vNull => "null"
  | .vBool b => if b then "true" else "false"
  | .vNum n => toString n
  | .vStr s => s
  | .vObj _ => "[object Object]"
  | .vArr xs => jsArrJoin xs

/-- Comma join used by `Array.prototype.toString`. -/
def jsArrJoin : List JSValue → String
  | [] => ""
  | [x] =>
    (match x with
     | .vNull => ""
     | .vUndefined => ""
     | v => jsStringConv v)
  | x :: xs =>
    (match x with
     | .vNull => ""
     | .vUndefined => ""
     | v => jsStringConv v) ++ "," ++ jsArrJoin xs

end

/-- Quotes and escapes a string as `JSON.stringify` does (quote and
backslash escaping; no control characters occur in this pipeline). -/
def jsonQuote (s : String) : String :=
  "\"" ++ String.join (s.data.map (fun c =>
    if c = '"' then "\\\"" else if c = '\\' then "\\\\" else String.mk [c])) ++ "\""

mutual

/-- Model of `JSON.stringify` for the values reachable from `safeString`
(nested `undefined` becomes `null` in arrays and is dropped in objects). -/
def jsonStringify : JSValue → String
  | .vUndefined => "null"
  | .vNull => "null"
  | .vBool b => if b then "true" else "false"
  | .vNum n => toString n
  | .vStr s => jsonQuote s
  | .vArr xs => "[" ++ jsonArrBody xs ++ "]"
  | .vObj fs => "\x7b" ++ jsonObjBody fs ++ "\x7d"

/-- Array body of `JSON.stringify`. -/
def jsonArrBody : List JSValue → String
  | [] => ""
  | [x] => jsonStringify x
  | x :: xs => jsonStringify x ++ "," ++ jsonArrBody xs

/-- Object body of `JSON.stringify`; keys holding `undefined` are dropped. -/
def jsonObjBody : List (String × JSValue) → String
  | [] => ""
  | (k, v) :: fs =>
    match v with
    | .vUndefined => jsonObjBody fs
    | w =>
      let rest := jsonObjBody fs
      let entry := jsonQuote k ++ ":" ++ jsonStringify w
      if rest = "" then entry else entry ++ "," ++ rest

end

/- ---------------------------------------------------------------------
   src/helpers/dataTransformers.ts
   --------------------------------------------------------------------- -/

/-- `isRecord` from `dataTransformers.ts`: a non-null object that is not
an array. -/
def isRecord : JSValue → Bool
  | .vObj _ => true
  | _ => false

/-- First-match association lookup inside an object literal (JavaScript
object keys are unique). -/
def lookupField : List (String × JSValue) → String → Option JSValue
  | [], _ => none
  | (k, v) :: fs, key => if k = key then some v else lookupField fs key

/-- `hasProperty` from `dataTransformers.ts`: `isRecord(obj) && key in obj`. -/
def hasPropertyB (obj : JSValue) (key : String) : Bool :=
  match obj with
  | .vObj fs => (lookupField fs key).isSome
  | _ => false

/-- `safeBodyString` from `dataTransformers.ts`:
`hasProperty(body, key) ? body[key] : ''`. -/
def safeBodyString (body : JSValue) (key : String) : JSValue :=
  match body with
  | .vObj fs =>
    match lookupField fs key with
    | some v => v
    | none => .vStr ""
  | _ => .vStr ""

/-- `dateStringFromThreeFields` from `dataTransformers.ts`: zero-pads the
day and month to two characters and concatenates as `YYYY-MM-DD`. -/
def dateStringFromThreeFields (day month year : String) : String :=
  let paddedMonth := jsPadStart month 2 '0'
  let paddedDay := jsPadStart day 2 '0'
  year ++ "-" ++ paddedMonth ++ "-" ++ paddedDay

/- ---------------------------------------------------------------------
   Model of validator.js `isDate` on the strings this pipeline builds
   --------------------------------------------------------------------- -/

/-- Gregorian leap-year rule. -/
def isLeapYear (y : Nat) : Bool :=
  (y % 4 == 0 && y % 100 != 0) || (y % 400 == 0)

/-- Days in a month of the Gregorian calendar (0 for an invalid month). -/
def daysInMonth (m y : Nat) : Nat :=
  match m with
  | 1 => 31
  | 2 => if isLeapYear y then 29 else 28
  | 3 => 31
  | 4 => 30
  | 5 => 31
  | 6 => 30
  | 7 => 31
  | 8 => 31
  | 9 => 30
  | 10 => 31
  | 11 => 30
  | 12 => 31
  | _ => 0

/-- Model of validator.js `isDate` with its default `YYYY/MM/DD` format on
a dash-delimited input (the only shape `dateStringFromThreeFields`
produces): the three parts must have lengths 4/2/2, be decimal digits, and
denote a real Gregorian calendar date (the library realises the last step
by round-tripping through the JavaScript `Date`, which rejects
out-of-range components of an ISO string). -/
def jsIsDate (s : String) : Bool :=
  match splitAtChar '-' s.data [] with
  | [y, m, d] =>
    y.length == 4 && m.length == 2 && d.length == 2 &&
    y.all Char.isDigit && m.all Char.isDigit && d.all Char.isDigit &&
    (let yn := digitsToNat y
     let mn := digitsToNat m
     let dn := digitsToNat d
     1 ≤ mn && mn ≤ 12 && 1 ≤ dn && dn ≤ daysInMonth mn yn)
  | _ => false

/- ---------------------------------------------------------------------
   src/helpers/ValidationErrorHelpers.ts
   --------------------------------------------------------------------- -/

/-- `ValidationErrorData`: structured error payload with separate summary
and inline messages. -/
structure ValidationErrorData where
  summaryMessage : String
  inlineMessage : String
deriving Repr, DecidableEq

/-- The message slot of an express-validator error: either a
`TypedValidationError` instance (carrying `ValidationErrorData`) or an
arbitrary untyped value. -/
inductive ErrMsg where
  | typed : ValidationErrorData → ErrMsg
  | plain : JSValue → ErrMsg

/-- An express-validator `ValidationError` as consumed by the formatters:
its field `path` (absent on non-field errors) and its message. -/
structure VError where
  path : Option String
  msg : ErrMsg

/-- Model of the external i18n lookup `t(key)`; the pipeline treats the
translated text as opaque, so the key itself stands in for the text. -/
def t (key : String) : String := key

/-- `shouldReturnEmptyString` from `ValidationErrorHelpers.ts`: null,
undefined, empty string, zero and false map to the empty string. -/
def shouldReturnEmptyString : JSValue → Bool
  | .vNull => true
  | .vUndefined => true
  | .vStr s => s == ""
  | .vNum n => n == 0
  | .vBool b => b == false
  | _ => false

/-- `safeString` from `ValidationErrorHelpers.ts`. -/
def safeString (value : JSValue) : String :=
  if shouldReturnEmptyString value then ""
  else
    match value with
    | .vStr s => s
    | .vNum n => jsStringConv (.vNum n)
    | .vBool b => jsStringConv (.vBool b)
    | .vArr [] => ""
    | .vArr xs => jsonStringify (.vArr xs)
    | .vObj [] => ""
    | .vObj fs => jsonStringify (.vObj fs)
    | v => jsStringConv v

/-- `formatValidationError` from `ValidationErrorHelpers.ts`. -/
def formatValidationError (e : VError) : ValidationErrorData :=
  match e.msg with
  | .typed d => d
  | .plain v =>
    if hasPropertyB v "summaryMessage" && hasPropertyB v "inlineMessage" then
      { summaryMessage := safeString (safeBodyString v "summaryMessage"),
        inlineMessage := safeString (safeBodyString v "inlineMessage") }
    else
      let safeMessage := safeString v
      let message := if safeMessage != "" then safeMessage else "Invalid value"
      { summaryMessage := message, inlineMessage := message }

/-- Field name extraction of `formatValidationErrors`:
`('path' in error && typeof error.path === 'string') ? error.path : 'unknown'`. -/
def errFieldName (e : VError) : String :=
  match e.path with
  | some p => p
  | none => "unknown"

/-- JavaScript object assignment `errors[fieldName] = msg` on an
insertion-ordered string map: overwrite in place when the key exists,
append otherwise. -/
def objSet (m : List (String × String)) (k v : String) : List (String × String) :=
  if m.any (fun p => p.1 == k) then
    m.map (fun p => if p.1 == k then (k, v) else p)
  else m ++ [(k, v)]

/-- Key-membership test on the insertion-ordered string map. -/
def containsKey (m : List (String × String)) (k : String) : Bool :=
  m.any (fun p => p.1 == k)

/-- One entry of the GOV.UK error summary list. -/
structure SummaryItem where
  text : String
  href : String
deriving Repr, DecidableEq

/-- Result shape of `formatValidationErrors`. -/
structure FormattedErrors where
  inputErrors : List (String × String)
  errorSummaryList : List SummaryItem

/-- `formatValidationErrors` from `ValidationErrorHelpers.ts`: formats
each raw error, builds the inline-error map (skipping errors whose inline
message trims to empty) and the summary list (one entry per error). -/
def formatValidationErrors (rawErrors : List VError) : FormattedErrors :=
  let formattedErrors := rawErrors.map (fun e => (errFieldName e, formatValidationError e))
  let inputErrors := formattedErrors.foldl
    (fun errors item =>
      if jsTrim item.2.inlineMessage != "" then objSet errors item.1 item.2.inlineMessage
      else errors) []
  let errorSummaryList := formattedErrors.map
    (fun item => SummaryItem.mk item.2.summaryMessage ("#" ++ item.1))
  { inputErrors := inputErrors, errorSummaryList := errorSummaryList }

/-- `normalizeBooleanValue` from `createChangeDetectionValidator`
(`ValidationErrorHelpers.ts`): boolean-like normalisation of an
already-stringified form value. -/
def normalizeBooleanValue (value : String) : String :=
  let stringValue := jsToLower (jsTrim (safeString (.vStr value)))
  if stringValue == "" || stringValue == "false" || stringValue == "off" then "false"
  else if stringValue == "on" || stringValue == "true" || stringValue == "1" then "true"
  else stringValue

/-- One field-pair comparison of `createChangeDetectionValidator`:
`normalizeBooleanValue(safeString(currentRaw)) !== normalizeBooleanValue(safeString(originalRaw))`. -/
def hasChangedPair (currentRaw originalRaw : JSValue) : Bool :=
  normalizeBooleanValue (safeString currentRaw) != normalizeBooleanValue (safeString originalRaw)

/-- The custom check installed by `createChangeDetectionValidator`: passes
on a non-record body, otherwise passes when some mapped field pair has
changed. -/
def changeDetectionCheck (fieldMappings : List (String × String)) (body : JSValue) : Bool :=
  if !isRecord body then true
  else fieldMappings.any (fun fm =>
    let currentRaw := if hasPropertyB body fm.1 then safeBodyString body fm.1 else .vStr ""
    let originalRaw := if hasPropertyB body fm.2 then safeBodyString body fm.2 else .vStr ""
    hasChangedPair currentRaw originalRaw)

/- ---------------------------------------------------------------------
   src/middlewares/personSchema.ts — date field helpers
   --------------------------------------------------------------------- -/

/-- The three extracted date-of-birth sub-fields. -/
structure DateFields where
  day : String
  month : String
  year : String
deriving Repr, DecidableEq

/-- `hasAnyDateField` from `personSchema.ts` (the source's `typeof`
guards are vacuous here because the arguments are statically strings). -/
def hasAnyDateField (day month year : String) : Bool :=
  (jsTrim day).length > 0 || (jsTrim month).length > 0 || (jsTrim year).length > 0

/-- `getDateFields` from `personSchema.ts`: extracts the three components
via `safeBodyString` and replaces non-string values by the empty string. -/
def getDateFields (body : JSValue) : DateFields :=
  if !isRecord body then { day := "", month := "", year := "" }
  else
    let dayValue := safeBodyString body "dateOfBirth-day"
    let monthValue := safeBodyString body "dateOfBirth-month"
    let yearValue := safeBodyString body "dateOfBirth-year"
    { day := match dayValue with | .vStr s => s | _ => ""
      month := match monthValue with | .vStr s => s | _ => ""
      year := match yearValue with | .vStr s => s | _ => "" }

/-- `hasPartialDateFields` from `personSchema.ts`. -/
def hasPartialDateFields (body : JSValue) : Bool :=
  if !isRecord body then false
  else
    let f := getDateFields body
    hasAnyDateField f.day f.month f.year

/-- `validateDayField` from `personSchema.ts`. -/
def validateDayField (value : JSValue) (body : JSValue) : Bool :=
  let currentValue := match value with | .vStr s => jsTrim s | _ => ""
  if !hasPartialDateFields body then true
  else if currentValue.length == 0 then false
  else
    match jsParseInt currentValue with
    | none => false
    | some dayNum => decide (1 ≤ dayNum) && decide (dayNum ≤ 31)

/-- `validateMonthField` from `personSchema.ts`. -/
def validateMonthField (value : JSValue) (body : JSValue) : Bool :=
  let currentValue := match value with | .vStr s => jsTrim s | _ => ""
  if !hasPartialDateFields body then true
  else if currentValue.length == 0 then false
  else
    match jsParseInt currentValue with
    | none => false
    | some monthNum => decide (1 ≤ monthNum) && decide (monthNum ≤ 12)

/-- `validateYearField` from `personSchema.ts`. -/
def validateYearField (value : JSValue) (body : JSValue) : Bool :=
  let currentValue := match value with | .vStr s => jsTrim s | _ => ""
  if !hasPartialDateFields body then true
  else if currentValue.length == 0 then false
  else if currentValue.length != 4 then false
  else (jsParseInt currentValue).isSome

/-- `createDateValidationError` from `personSchema.ts`: both messages are
the translated `forms.dateOfBirth.validationError.<field>.<errorType>`. -/
def createDateValidationError (field errorType : String) : ValidationErrorData :=
  let messageKey := "forms.dateOfBirth.validationError." ++ field ++ "." ++ errorType
  { summaryMessage := t messageKey, inlineMessage := t messageKey }

/-- `isValidRecord` from `personSchema.ts` (semantically identical to
`isRecord` of `dataTransformers.ts`). -/
def isValidRecord : JSValue → Bool
  | .vObj _ => true
  | _ => false

/- ---------------------------------------------------------------------
   Model of express-validator plumbing
   --------------------------------------------------------------------- -/

/-- Shallow (non-array-unwrapping) part of express-validator's value
coercion used by its standard validators and sanitizers: strings pass
through, nullish values become empty, primitives use their natural string
form, arrays join, plain objects stringify to `"[object Object]"`. -/
def evToStringShallow : JSValue → String
  | .vStr s => s
  | .vNum n => jsStringConv (.vNum n)
  | .vBool b => jsStringConv (.vBool b)
  | .vNull => ""
  | .vUndefined => ""
  | .vObj _ => "[object Object]"
  | .vArr xs => jsStringConv (.vArr xs)

/-- express-validator's `toString` coercion: a non-empty array is
replaced by its first element before the shallow conversion. -/
def evToString : JSValue → String
  | .vArr (x :: _) => evToStringShallow x
  | .vArr [] => ""
  | v => evToStringShallow v

/-- The value express-validator hands to a field's validators: the raw
body property, `undefined` when the key (or a record body) is absent. -/
def fieldValue (body : JSValue) (key : String) : JSValue :=
  match body with
  | .vObj fs =>
    match lookupField fs key with
    | some v => v
    | none => .vUndefined
  | _ => .vUndefined

/-- The `trim: true` standard sanitizer at the app's level of
abstraction: trims string values; after the custom sanitizer the value is
a string or nullish, and nullish values are preserved for the downstream
required check (see the source comment "Preserve undefined and null to
allow proper validation"; the observable validation outcome of a nullish
value is the same either way, since `notEmpty` coerces both `null` and
`''` to the empty string). -/
def trimSanitizer : JSValue → JSValue
  | .vStr s => .vStr (jsTrim s)
  | v => v

/-- The custom sanitizer installed on both `fullName` and `address`
(`personSchema.ts` repeats the same function literal inline on the two
fields): preserves `null`/`undefined`, passes strings through, coerces
`typeof === 'object'` values (plain objects and arrays) to the empty
string, and numbers/booleans via `String(value)`. -/
def personFieldSanitizer : JSValue → JSValue
  | .vUndefined => .vUndefined
  | .vNull => .vNull
  | .vStr s => .vStr s
  | .vObj _ => .vStr ""
  | .vArr _ => .vStr ""
  | .vNum n => .vStr (jsStringConv (.vNum n))
  | .vBool b => .vStr (jsStringConv (.vBool b))

/-- One validator outcome turned into its list of produced failures:
a passing check contributes nothing, a failing check contributes exactly
one error for its field. -/
def mkFailures (name : String) (ok : Bool) (data : ValidationErrorData) : List VError :=
  if ok then [] else [{ path := some name, msg := .typed data }]

/-- The contactPreference change-required custom check from
`personSchema.ts` (lines 241-256): passes unless the session holds a valid
`personOriginal` record whose `contactPreference` entry is neither null
nor undefined and is strictly equal to the submitted value.  Strict
equality is modelled structurally on primitives and as `false` between
composites, which are distinct heap references here (the body and the
session are parsed/stored separately). -/
def jsStrictEq : JSValue → JSValue → Bool
  | .vStr a, .vStr b => a == b
  | .vNum a, .vNum b => a == b
  | .vBool a, .vBool b => a == b
  | .vNull, .vNull => true
  | .vUndefined, .vUndefined => true
  | _, _ => false

/-- Test for `value === null || value === undefined` style guards. -/
def isNullish : JSValue → Bool
  | .vNull => true
  | .vUndefined => true
  | _ => false

/-- `contactPreference` custom validator from `personSchema.ts`. -/
def contactPrefChanged (value : JSValue) (session : JSValue) : Bool :=
  let originalData :=
    if !isNullish session && isValidRecord session then
      fieldValue session "personOriginal"
    else .vUndefined
  if !isValidRecord originalData then true
  else
    let originalContactPreference := fieldValue originalData "contactPreference"
    if isNullish originalContactPreference then true
    else !jsStrictEq value originalContactPreference

/-- `priority` custom validator from `personSchema.ts` (lines 298-313);
the guard structure differs slightly from the contactPreference one in the
source but the semantics coincide. -/
def priorityChanged (value : JSValue) (session : JSValue) : Bool :=
  if !(isRecord session && isValidRecord (fieldValue session "personOriginal")) then true
  else
    let originalData := fieldValue session "personOriginal"
    let originalPriority := fieldValue originalData "priority"
    if isNullish originalPriority then true
    else !jsStrictEq value originalPriority

/-- The `validDate` cross-component check from `personSchema.ts`
(lines 463-492): passes on a non-record body, passes when all three or
some of the trimmed components are empty, and otherwise delegates to
validator.js `isDate` on the composed `YYYY-MM-DD` string. -/
def validDateCheck (body : JSValue) : Bool :=
  if !isRecord body then true
  else
    let f := getDateFields body
    let dayTrimmed := jsTrim f.day
    let monthTrimmed := jsTrim f.month
    let yearTrimmed := jsTrim f.year
    if dayTrimmed.length == 0 && monthTrimmed.length == 0 && yearTrimmed.length == 0 then true
    else if dayTrimmed.length == 0 || monthTrimmed.length == 0 || yearTrimmed.length == 0 then true
    else jsIsDate (dateStringFromThreeFields dayTrimmed monthTrimmed yearTrimmed)

/-- The dynamic error message of the `dateOfBirth-day` custom validator
(`personSchema.ts` lines 358-372). -/
def dayErrorMessage (value : JSValue) (body : JSValue) : ValidationErrorData :=
  if !isRecord body then createDateValidationError "day" "notEmpty"
  else
    let f := getDateFields body
    let hasDateFields := hasAnyDateField f.day f.month f.year
    let valueEmpty := match value with | .vStr s => (jsTrim s).length == 0 | _ => true
    if hasDateFields && valueEmpty then createDateValidationError "day" "notEmpty"
    else createDateValidationError "day" "isInt"

/-- The dynamic error message of the `dateOfBirth-month` custom validator
(`personSchema.ts` lines 394-408). -/
def monthErrorMessage (value : JSValue) (body : JSValue) : ValidationErrorData :=
  if !isRecord body then createDateValidationError "month" "notEmpty"
  else
    let f := getDateFields body
    let hasDateFields := hasAnyDateField f.day f.month f.year
    let valueEmpty := match value with | .vStr s => (jsTrim s).length == 0 | _ => true
    if hasDateFields && valueEmpty then createDateValidationError "month" "notEmpty"
    else createDateValidationError "month" "isInt"

/-- The dynamic error message of the `dateOfBirth-year` custom validator
(`personSchema.ts` lines 430-450); the non-record branch constructs the
`year.notEmpty` message inline in the source. -/
def yearErrorMessage (value : JSValue) (body : JSValue) : ValidationErrorData :=
  if !isRecord body then
    { summaryMessage := t "forms.dateOfBirth.validationError.year.notEmpty",
      inlineMessage := t "forms.dateOfBirth.validationError.year.notEmpty" }
  else
    let f := getDateFields body
    let hasDateFields := hasAnyDateField f.day f.month f.year
    let valueEmpty := match value with | .vStr s => (jsTrim s).length == 0 | _ => true
    if hasDateFields && valueEmpty then createDateValidationError "year" "notEmpty"
    else
      let yearStr := match value with | .vStr s => jsTrim s | _ => ""
      if yearStr.length > 0 && yearStr.length != 4 then createDateValidationError "year" "isLength"
      else createDateValidationError "year" "isInt"

/- ---------------------------------------------------------------------
   The validatePerson pipeline (checkSchema field order)
   --------------------------------------------------------------------- -/

/-- Builds the structured message used by the non-date fields of
`personSchema.ts`: both messages are `t('forms.<field>.validationError.<errorType>')`. -/
def personMsg (field errorType : String) : ValidationErrorData :=
  let key := "forms." ++ field ++ ".validationError." ++ errorType
  { summaryMessage := t key, inlineMessage := t key }

/-- `fullName` chain: custom sanitizer, `trim: true`, then `notEmpty`. -/
def fullNameFailures (body : JSValue) : List VError :=
  let value := trimSanitizer (personFieldSanitizer (fieldValue body "fullName"))
  mkFailures "fullName" (evToString value != "") (personMsg "name" "notEmpty")

/-- `address` chain: custom sanitizer, `trim: true`, then `notEmpty`. -/
def addressFailures (body : JSValue) : List VError :=
  let value := trimSanitizer (personFieldSanitizer (fieldValue body "address"))
  mkFailures "address" (evToString value != "") (personMsg "address" "notEmpty")

/-- `contactPreference` chain: `notEmpty`, `isIn(['email','phone','post'])`
and the change-required custom check, in that order; express-validator
runs all three (no bail), so each failing validator contributes one error. -/
def contactPreferenceFailures (body session : JSValue) : List VError :=
  let value := fieldValue body "contactPreference"
  let s := evToString value
  mkFailures "contactPreference" (s != "") (personMsg "contactPreference" "notEmpty") ++
  mkFailures "contactPreference" (["email", "phone", "post"].contains s)
    (personMsg "contactPreference" "invalidOption") ++
  mkFailures "contactPreference" (contactPrefChanged value session)
    (personMsg "contactPreference" "notChanged")

/-- `priority` chain: `notEmpty`, `isIn(['low','medium','high','urgent'])`
and the change-required custom check. -/
def priorityFailures (body session : JSValue) : List VError :=
  let value := fieldValue body "priority"
  let s := evToString value
  mkFailures "priority" (s != "") (personMsg "priority" "notEmpty") ++
  mkFailures "priority" (["low", "medium", "high", "urgent"].contains s)
    (personMsg "priority" "invalidOption") ++
  mkFailures "priority" (priorityChanged value session)
    (personMsg "priority" "notChanged")

/-- `communicationMethods` chain: `isArray({ min: 1 })`. -/
def communicationMethodsFailures (body : JSValue) : List VError :=
  let value := fieldValue body "communicationMethods"
  let ok := match value with | .vArr xs => decide (1 ≤ xs.length) | _ => false
  mkFailures "communicationMethods" ok (personMsg "communicationMethods" "notEmpty")

/-- `dateOfBirth-day` chain: `trim: true` then the custom validator; the
trim sanitizer stringifies and trims the raw value before the validator
sees it. -/
def dayFailures (body : JSValue) : List VError :=
  let value : JSValue := .vStr (jsTrim (evToString (fieldValue body "dateOfBirth-day")))
  mkFailures "dateOfBirth-day" (validateDayField value body) (dayErrorMessage value body)

/-- `dateOfBirth-month` chain. -/
def monthFailures (body : JSValue) : List VError :=
  let value : JSValue := .vStr (jsTrim (evToString (fieldValue body "dateOfBirth-month")))
  mkFailures "dateOfBirth-month" (validateMonthField value body) (monthErrorMessage value body)

/-- `dateOfBirth-year` chain. -/
def yearFailures (body : JSValue) : List VError :=
  let value : JSValue := .vStr (jsTrim (evToString (fieldValue body "dateOfBirth-year")))
  mkFailures "dateOfBirth-year" (validateYearField value body) (yearErrorMessage value body)

/-- `validDate` chain: the synthetic cross-component check. -/
def validDateFailures (body : JSValue) : List VError :=
  mkFailures "validDate" (validDateCheck body) (personMsg "dateOfBirth" "validDate")

/-- The full `validatePerson()` schema: failures are collected per field
chain in schema-declaration order (express-validator gathers each chain's
errors in the order the chains were declared).  Body mutation by the
`trim` sanitizers is not modelled across chains; every cross-chain
consumer of the date fields re-trims the values itself, so the collected
failures do not depend on it for string-valued submissions. -/
def validatePersonFailures (body session : JSValue) : List VError :=
  fullNameFailures body ++
  addressFailures body ++
  contactPreferenceFailures body session ++
  priorityFailures body session ++
  communicationMethodsFailures body ++
  dayFailures body ++
  monthFailures body ++
  yearFailures body ++
  validDateFailures body

/- ---------------------------------------------------------------------
   Specification-side definitions (named by the spec, written from its
   words, to be compared with the code-derived definitions above)
   --------------------------------------------------------------------- -/

/-- Written from the spec (4.4): values equal (case-insensitive, after
trimming) to the empty string, "false" or "off" normalise to the
canonical false-string; "on", "true" or "1" to the canonical true-string;
anything else is compared as its trimmed lowercase form. -/
def specNormalize (s : String) : String :=
  let u := jsToLower (jsTrim s)
  if u == "" || u == "false" || u == "off" then "false"
  else if u == "on" || u == "true" || u == "1" then "true"
  else u

/-- Written from the amended C6 claim: nullish values pass through
unchanged, strings pass through (trimmed by the schema's separate
`trim: true` step), plain objects and arrays become the empty string,
numbers and booleans their natural string form. -/
def specSanitize : JSValue → JSValue
  | .vUndefined => .vUndefined
  | .vNull => .vNull
  | .vStr s => .vStr s
  | .vObj _ => .vStr ""
  | .vArr _ => .vStr ""
  | .vNum n => .vStr (jsStringConv (.vNum n))
  | .vBool b => .vStr (jsStringConv (.vBool b))

/-- Written from the amended C7 claim: structured messages are returned
(string fields verbatim, other field values via the safe string
coercion); an unstructured message becomes its safe string coercion,
used verbatim as both messages, with the literal `"Invalid value"`
exactly when that coercion is empty. -/
def specFormatError (e : VError) : ValidationErrorData :=
  match e.msg with
  | .typed d => d
  | .plain v =>
    if hasPropertyB v "summaryMessage" && hasPropertyB v "inlineMessage" then
      { summaryMessage := safeString (safeBodyString v "summaryMessage"),
        inlineMessage := safeString (safeBodyString v "inlineMessage") }
    else if safeString v == "" then
      { summaryMessage := "Invalid value", inlineMessage := "Invalid value" }
    else
      { summaryMessage := safeString v, inlineMessage := safeString v }

/-- Modelled from the spec (4.5): `isValidCalendarDate(day, month, year)`
— the source has no function of this name and delegates the check to
validator.js `isDate` on the composed string; this is the spec's
"standard calendar-validity check, catching month-length and leap-year
edge cases". -/
def isValidCalendarDate (day month year : Nat) : Bool :=
  1 ≤ month && month ≤ 12 && 1 ≤ day && day ≤ daysInMonth month year

/-- Written from the spec (4.2, C4): a present day component must parse
as an integer in [1, 31]. -/
def specDayRule (v : String) : Bool :=
  match jsParseInt (jsTrim v) with
  | some n => decide (1 ≤ n) && decide (n ≤ 31)
  | none => false

/-- Written from the spec (4.2, C4): a present month component must parse
as an integer in [1, 12]. -/
def specMonthRule (v : String) : Bool :=
  match jsParseInt (jsTrim v) with
  | some n => decide (1 ≤ n) && decide (n ≤ 12)
  | none => false

/-- Written from the spec (4.2, C4): a present year component must be
exactly four characters and parse as an integer (no further range
check). -/
def specYearRule (v : String) : Bool :=
  (jsTrim v).length == 4 && (jsParseInt (jsTrim v)).isSome

/-- The schema field-declaration order of `validatePerson()`. -/
def fieldDeclOrder : List String :=
  ["fullName", "address", "contactPreference", "priority", "communicationMethods",
   "dateOfBirth-day", "dateOfBirth-month", "dateOfBirth-year", "validDate"]

/-- Position of a field name in the declaration order. -/
def fieldIdx (s : String) : Nat :=
  fieldDeclOrder.indexOf s

/-- A record body carrying only the three date-of-birth components as
string values. -/
def dobBody (d m y : String) : JSValue :=
  .vObj [("dateOfBirth-day", .vStr d), ("dateOfBirth-month", .vStr m),
         ("dateOfBirth-year", .vStr y)]

/-- String-value test on a `JSValue`. -/
def isStr : JSValue → Bool
  | .vStr _ => true
  | _ => false

/- ---------------------------------------------------------------------
   Sanitizer write-back across the date chains

   express-validator standard sanitizers persist their result into
   `req.body` (the repository's own middleware tests assert the
   write-back), and `checkSchema` returns one middleware per field that
   Express runs sequentially in declaration order.  So by the time a date
   chain's validator runs, its own `trim: true` sanitizer — and those of
   the date chains declared before it — have replaced the raw component
   values with their trimmed string coercions.  The definitions below
   model the date chains with this write-back; they matter for non-string
   components (for string-valued components every consumer re-trims, so
   the raw-body definitions above collect the same failures).
   --------------------------------------------------------------------- -/

/-- JavaScript object assignment on the field list of an object:
overwrite in place when the key exists (order preserved), append
otherwise. -/
def setFields (fs : List (String × JSValue)) (key : String) (v : JSValue) :
    List (String × JSValue) :=
  if (lookupField fs key).isSome then
    fs.map (fun p => if p.1 = key then (key, v) else p)
  else fs ++ [(key, v)]

/-- JavaScript object assignment `body[key] = v`; a non-record body is
left unchanged (that case never carries a date component anyway). -/
def setField (body : JSValue) (key : String) (v : JSValue) : JSValue :=
  match body with
  | .vObj fs => .vObj (setFields fs key v)
  | b => b

/-- One date chain's `trim: true` standard sanitizer with its write-back:
the raw component is coerced with express-validator's toString, trimmed,
and stored back into the body. -/
def applyTrimSanitizer (body : JSValue) (key : String) : JSValue :=
  setField body key (.vStr (jsTrim (evToString (fieldValue body key))))

/-- The body as the `dateOfBirth-day` chain's validator sees it: the
chain's own sanitizer has already run. -/
def bodyAfterDaySan (body : JSValue) : JSValue :=
  applyTrimSanitizer body "dateOfBirth-day"

/-- The body as the `dateOfBirth-month` chain's validator sees it. -/
def bodyAfterMonthSan (body : JSValue) : JSValue :=
  applyTrimSanitizer (bodyAfterDaySan body) "dateOfBirth-month"

/-- The body as the `dateOfBirth-year` chain's validator (and then the
`validDate` chain) sees it. -/
def bodyAfterYearSan (body : JSValue) : JSValue :=
  applyTrimSanitizer (bodyAfterMonthSan body) "dateOfBirth-year"

/-- `dateOfBirth-day` chain with the sanitizer write-back modelled. -/
def dayFailuresSan (body : JSValue) : List VError :=
  let b := bodyAfterDaySan body
  let value := fieldValue b "dateOfBirth-day"
  mkFailures "dateOfBirth-day" (validateDayField value b) (dayErrorMessage value b)

/-- `dateOfBirth-month` chain with the sanitizer write-back modelled. -/
def monthFailuresSan (body : JSValue) : List VError :=
  let b := bodyAfterMonthSan body
  let value := fieldValue b "dateOfBirth-month"
  mkFailures "dateOfBirth-month" (validateMonthField value b) (monthErrorMessage value b)

/-- `dateOfBirth-year` chain with the sanitizer write-back modelled. -/
def yearFailuresSan (body : JSValue) : List VError :=
  let b := bodyAfterYearSan body
  let value := fieldValue b "dateOfBirth-year"
  mkFailures "dateOfBirth-year" (validateYearField value b) (yearErrorMessage value b)

/-- `validDate` chain with the sanitizer write-back modelled: it runs
after all three date chains have stringified their components. -/
def validDateFailuresSan (body : JSValue) : List VError :=
  mkFailures "validDate" (validDateCheck (bodyAfterYearSan body))
    (personMsg "dateOfBirth" "validDate")

/- ---------------------------------------------------------------------
   Helper lemmas
   --------------------------------------------------------------------- -/

/-- `safeString` is the identity on strings (the empty string hits the
defensive branch but the result coincides). -/
theorem safeString_vStr (s : String) : safeString (.vStr s) = s := by
  by_cases h : s = ""
  · subst h; rfl
  · simp [safeString, shouldReturnEmptyString, h]

/-- The source's `normalizeBooleanValue` coincides with the spec's
normalisation on strings. -/
theorem normalizeBooleanValue_eq_spec (s : String) :
    normalizeBooleanValue s = specNormalize s := by
  simp [normalizeBooleanValue, specNormalize, safeString_vStr]

/-- A string has length zero exactly when it is the empty string. -/
theorem str_length_zero_iff (s : String) : s.length = 0 ↔ s = "" := by
  cases s with
  | mk data =>
    cases data with
    | nil => simp [String.length]
    | cons c cs => simp [String.length, String.ext_iff]

/-- evToString is the identity on strings. -/
theorem evToString_vStr (s : String) : evToString (.vStr s) = s := rfl

/- ---------------------------------------------------------------------
   C2 — change-detection comparison
   --------------------------------------------------------------------- -/

/-- C2: for every pair of string values the change-detection comparison
returns "changed" exactly when the two values differ after boolean-like
normalisation (empty/"false"/"off" to the canonical false-string,
"on"/"true"/"1" to the canonical true-string, anything else compared as
its trimmed lowercase form); in particular `hasChanged("on", "false")` is
true, `hasChanged("true", "1")` is false, and `hasChanged("", "off")` is
false. -/
theorem c2_hasChanged_boolean_normalization :
    (∀ c o : String,
      hasChangedPair (.vStr c) (.vStr o) = (specNormalize c != specNormalize o)) ∧
    hasChangedPair (.vStr "on") (.vStr "false") = true ∧
    hasChangedPair (.vStr "true") (.vStr "1") = false ∧
    hasChangedPair (.vStr "") (.vStr "off") = false := by
  refine ⟨fun c o => ?_, by decide, by decide, by decide⟩
  simp [hasChangedPair, safeString_vStr, normalizeBooleanValue_eq_spec]

/- ---------------------------------------------------------------------
   C6 — field sanitizer
   --------------------------------------------------------------------- -/

/-- C6 (amended): the custom field sanitizer leaves `null`/`undefined`
unchanged, passes strings through (the schema's separate `trim: true`
step then yields the trimmed string), coerces plain objects AND arrays to
the empty string, and numbers/booleans to their natural string form; it
is a total function (never raises). -/
theorem c6_sanitizer_behavior :
    (∀ v : JSValue, personFieldSanitizer v = specSanitize v) ∧
    (∀ s : String, trimSanitizer (personFieldSanitizer (.vStr s)) = .vStr (jsTrim s)) := by
  constructor
  · intro v; cases v <;> rfl
  · intro s; rfl

/-- C6 counterexample: the claim says an array is converted via its
natural string form, but the sanitizer's `typeof value === 'object'`
branch sends every array to the empty string; on `["x"]` the natural
string form is `"x"`, not `""`. -/
theorem c6_array_counterexample :
    personFieldSanitizer (.vArr [.vStr "x"]) = .vStr "" ∧
    jsStringConv (.vArr [.vStr "x"]) = "x" ∧
    ("" : String) ≠ "x" := by
  refine ⟨rfl, ?_, by decide⟩
  simp [jsStringConv, jsArrJoin]

/- ---------------------------------------------------------------------
   C7 — error message formatter
   --------------------------------------------------------------------- -/

/-- C7 (amended): a structured message (TypedValidationError, or a record
with `summaryMessage` and `inlineMessage`) yields those messages; an
unstructured message becomes its safe string coercion used verbatim as
both messages, with the literal `"Invalid value"` exactly when that
coercion is empty (which holds for the empty string, null, undefined,
false, 0, and empty objects/arrays, but not for other non-string values
such as non-zero numbers). -/
theorem c7_error_formatter_fallback :
    (∀ e : VError, formatValidationError e = specFormatError e) ∧
    formatValidationError ⟨some "f", .plain (.vStr "boom")⟩ =
      { summaryMessage := "boom", inlineMessage := "boom" } ∧
    formatValidationError ⟨some "f", .plain .vNull⟩ =
      { summaryMessage := "Invalid value", inlineMessage := "Invalid value" } := by
  refine ⟨fun e => ?_, by rfl, by rfl⟩
  rcases e with ⟨p, msg⟩
  cases msg with
  | typed d => rfl
  | plain v =>
    simp only [formatValidationError, specFormatError]
    split
    · rfl
    · by_cases h : safeString v = "" <;> simp [h]

/-- C7 counterexample: the claim says a non-string message defaults to
`"Invalid value"`, but a numeric message `5` is coerced to `"5"` and
returned as both messages. -/
theorem c7_nonstring_counterexample :
    formatValidationError ⟨some "field", .plain (.vNum 5)⟩ =
      { summaryMessage := "5", inlineMessage := "5" } ∧
    ("5" : String) ≠ "Invalid value" := by
  refine ⟨by rfl, by decide⟩

/- ---------------------------------------------------------------------
   C8 — calendar validity
   --------------------------------------------------------------------- -/

/-- C8: the calendar-validity check accepts 29 February exactly in leap
years and rejects day/month combinations exceeding the month's length:
`isValidCalendarDate(29, 2, 2000)` is true, `(29, 2, 1999)` false,
`(31, 4, 2000)` false — and the code path actually used by the source
(validator.js `isDate` on the composed `YYYY-MM-DD` string) agrees at all
three points. -/
theorem c8_calendar_validity :
    isValidCalendarDate 29 2 2000 = true ∧
    isValidCalendarDate 29 2 1999 = false ∧
    isValidCalendarDate 31 4 2000 = false ∧
    (∀ y : Nat, isValidCalendarDate 29 2 y = isLeapYear y) ∧
    (∀ y : Nat, isValidCalendarDate 31 4 y = false) ∧
    jsIsDate (dateStringFromThreeFields "29" "2" "2000") = true ∧
    jsIsDate (dateStringFromThreeFields "29" "2" "1999") = false ∧
    jsIsDate (dateStringFromThreeFields "31" "4" "2000") = false := by
  refine ⟨by decide, by decide, by decide, fun y => ?_, fun y => ?_, by decide, by decide,
    by decide⟩
  · simp only [isValidCalendarDate, daysInMonth]
    by_cases h : isLeapYear y <;> simp [h]
  · simp [isValidCalendarDate, daysInMonth]

/- ---------------------------------------------------------------------
   C5 — contactPreference change-required rule
   --------------------------------------------------------------------- -/

/-- Bool algebra core of the change-required guard. -/
theorem changeGuardEq (value od : JSValue) :
    (if !isValidRecord od then true
     else if isNullish (fieldValue od "contactPreference") then true
     else !jsStrictEq value (fieldValue od "contactPreference")) =
    !(isValidRecord od && !isNullish (fieldValue od "contactPreference") &&
      jsStrictEq value (fieldValue od "contactPreference")) := by
  by_cases h1 : isValidRecord od <;>
    by_cases h2 : isNullish (fieldValue od "contactPreference") <;> simp [h1, h2]

/-- C5: the contactPreference change-required check fails (returns false)
exactly when the session's `personOriginal` snapshot is a record whose
`contactPreference` entry is neither null nor undefined and is strictly
equal to the submitted value — in every other situation (no session, no
snapshot, no recorded original) the rule passes; and resubmitting the
identical in-set value yields exactly one notChanged failure for
contactPreference. -/
theorem c5_contact_preference_change_rule :
    (∀ value session : JSValue,
      contactPrefChanged value session =
        !(isValidRecord (fieldValue session "personOriginal") &&
          !isNullish (fieldValue (fieldValue session "personOriginal") "contactPreference") &&
          jsStrictEq value (fieldValue (fieldValue session "personOriginal") "contactPreference"))) ∧
    contactPreferenceFailures
        (.vObj [("contactPreference", .vStr "email")])
        (.vObj [("personOriginal", .vObj [("contactPreference", .vStr "email")])]) =
      [{ path := some "contactPreference",
         msg := .typed (personMsg "contactPreference" "notChanged") }] := by
  constructor
  · intro value session
    cases session with
    | vObj fs =>
      show (if !isValidRecord (fieldValue (.vObj fs) "personOriginal") then true
            else _) = _
      exact changeGuardEq value _
    | vNull => simp [contactPrefChanged, isNullish, fieldValue, isValidRecord]
    | vUndefined => simp [contactPrefChanged, isNullish, fieldValue, isValidRecord]
    | vStr s => simp [contactPrefChanged, isNullish, fieldValue, isValidRecord]
    | vNum n => simp [contactPrefChanged, isNullish, fieldValue, isValidRecord]
    | vBool b => simp [contactPrefChanged, isNullish, fieldValue, isValidRecord]
    | vArr xs => simp [contactPrefChanged, isNullish, fieldValue, isValidRecord]
  · rfl

/- ---------------------------------------------------------------------
   C10 — non-string date components
   --------------------------------------------------------------------- -/

/-- Looking up the overwritten key after an in-place replacement. -/
theorem lookup_map_set (k : String) (v : JSValue) :
    ∀ fs : List (String × JSValue), (lookupField fs k).isSome = true →
      lookupField (fs.map (fun p => if p.1 = k then (k, v) else p)) k = some v := by
  intro fs
  induction fs with
  | nil => intro h; simp [lookupField] at h
  | cons p ps ih =>
    obtain ⟨a, b⟩ := p
    intro h
    simp only [List.map_cons]
    by_cases hp : a = k
    · rw [if_pos hp]
      simp [lookupField]
    · rw [if_neg hp]
      simp [lookupField, hp] at h ⊢
      exact ih h

/-- Looking up the appended key when it was absent. -/
theorem lookup_append_set (k : String) (v : JSValue) :
    ∀ fs : List (String × JSValue), lookupField fs k = none →
      lookupField (fs ++ [(k, v)]) k = some v := by
  intro fs
  induction fs with
  | nil => intro _; simp [lookupField]
  | cons p ps ih =>
    obtain ⟨a, b⟩ := p
    intro h
    by_cases hp : a = k
    · simp [lookupField, hp] at h
    · simp [lookupField, hp] at h ⊢
      exact ih h

/-- Assigning a key then looking it up yields the assigned value. -/
theorem lookupField_setFields_self (fs : List (String × JSValue)) (k : String) (v : JSValue) :
    lookupField (setFields fs k v) k = some v := by
  unfold setFields
  split
  · next hmem => exact lookup_map_set k v fs hmem
  · next hmem =>
    refine lookup_append_set k v fs ?_
    cases hl : lookupField fs k
    · rfl
    · exact absurd (by simp [hl]) hmem

/-- An in-place replacement leaves every other key's lookup unchanged. -/
theorem lookup_map_ne (k : String) (v : JSValue) (k2 : String) (hne : ¬ k2 = k) :
    ∀ fs : List (String × JSValue),
      lookupField (fs.map (fun p => if p.1 = k then (k, v) else p)) k2 = lookupField fs k2 := by
  intro fs
  induction fs with
  | nil => rfl
  | cons p ps ih =>
    obtain ⟨a, b⟩ := p
    simp only [List.map_cons]
    by_cases hp : a = k
    · have hkk2 : ¬ k = k2 := fun he => hne he.symm
      have hp2 : ¬ a = k2 := by rw [hp]; exact hkk2
      rw [if_pos hp]
      simp [lookupField, hkk2, hp2, ih]
    · rw [if_neg hp]
      by_cases hq : a = k2
      · simp [lookupField, hq]
      · simp [lookupField, hq, ih]

/-- Appending a fresh key leaves every other key's lookup unchanged. -/
theorem lookup_append_ne (k : String) (v : JSValue) (k2 : String) (hne : ¬ k2 = k) :
    ∀ fs : List (String × JSValue),
      lookupField (fs ++ [(k, v)]) k2 = lookupField fs k2 := by
  intro fs
  induction fs with
  | nil => simp [lookupField, show ¬ k = k2 from fun he => hne he.symm]
  | cons p ps ih =>
    obtain ⟨a, b⟩ := p
    by_cases hp : a = k2
    · simp [lookupField, hp]
    · simp [lookupField, hp, ih]

/-- An assignment leaves every other key's lookup unchanged. -/
theorem lookupField_setFields_ne (fs : List (String × JSValue)) (k : String) (v : JSValue)
    (k2 : String) (hne : ¬ k2 = k) :
    lookupField (setFields fs k v) k2 = lookupField fs k2 := by
  unfold setFields
  split
  · exact lookup_map_ne k v k2 hne fs
  · exact lookup_append_ne k v k2 hne fs

/-- The sanitizer write-back makes its own key hold the trimmed string
coercion of the raw value. -/
theorem fieldValue_applyTrim_self (gs : List (String × JSValue)) (k : String) :
    fieldValue (applyTrimSanitizer (.vObj gs) k) k =
      .vStr (jsTrim (evToString (fieldValue (.vObj gs) k))) := by
  unfold applyTrimSanitizer setField
  simp [fieldValue, lookupField_setFields_self]

/-- The sanitizer write-back leaves other keys unchanged. -/
theorem fieldValue_applyTrim_ne (gs : List (String × JSValue)) (k k2 : String)
    (hne : ¬ k2 = k) :
    fieldValue (applyTrimSanitizer (.vObj gs) k) k2 = fieldValue (.vObj gs) k2 := by
  unfold applyTrimSanitizer setField
  simp [fieldValue, lookupField_setFields_ne gs k _ k2 hne]

/-- When a key's raw lookup is a string, `safeBodyString` agrees with
`fieldValue` on it. -/
theorem safeBodyString_of_str (gs : List (String × JSValue)) (k : String) (s : String)
    (h : fieldValue (.vObj gs) k = .vStr s) : safeBodyString (.vObj gs) k = .vStr s := by
  cases hl : lookupField gs k with
  | none =>
    have hu : fieldValue (.vObj gs) k = .vUndefined := by simp [fieldValue, hl]
    rw [hu] at h
    cases h
  | some v =>
    have hfv : fieldValue (.vObj gs) k = v := by simp [fieldValue, hl]
    rw [hfv] at h
    simp [safeBodyString, hl, h]

/-- After all three date chains have run, every date component in the
body is the trimmed string coercion of its raw value — this is how a
non-string component stops counting as absent. -/
theorem getDateFields_bodyAfterYearSan (fs : List (String × JSValue)) :
    getDateFields (bodyAfterYearSan (.vObj fs)) =
      ⟨jsTrim (evToString (fieldValue (.vObj fs) "dateOfBirth-day")),
       jsTrim (evToString (fieldValue (.vObj fs) "dateOfBirth-month")),
       jsTrim (evToString (fieldValue (.vObj fs) "dateOfBirth-year"))⟩ := by
  have hmd : ¬ ("dateOfBirth-month" : String) = "dateOfBirth-day" := by decide
  have hyd : ¬ ("dateOfBirth-year" : String) = "dateOfBirth-day" := by decide
  have hym : ¬ ("dateOfBirth-year" : String) = "dateOfBirth-month" := by decide
  have hdy : ¬ ("dateOfBirth-day" : String) = "dateOfBirth-year" := by decide
  have hdm : ¬ ("dateOfBirth-day" : String) = "dateOfBirth-month" := by decide
  have hmy : ¬ ("dateOfBirth-month" : String) = "dateOfBirth-year" := by decide
  obtain ⟨g1, hg1⟩ : ∃ g1, bodyAfterDaySan (.vObj fs) = .vObj g1 := ⟨_, rfl⟩
  obtain ⟨g2, hg2⟩ : ∃ g2, bodyAfterMonthSan (.vObj fs) = .vObj g2 := by
    rw [bodyAfterMonthSan, hg1]; exact ⟨_, rfl⟩
  obtain ⟨g3, hg3⟩ : ∃ g3, bodyAfterYearSan (.vObj fs) = .vObj g3 := by
    rw [bodyAfterYearSan, hg2]; exact ⟨_, rfl⟩
  have cday : fieldValue (bodyAfterYearSan (.vObj fs)) "dateOfBirth-day" =
      .vStr (jsTrim (evToString (fieldValue (.vObj fs) "dateOfBirth-day"))) := by
    rw [bodyAfterYearSan, hg2, fieldValue_applyTrim_ne g2 _ _ hdy,
      ← hg2, bodyAfterMonthSan, hg1, fieldValue_applyTrim_ne g1 _ _ hdm, ← hg1]
    exact fieldValue_applyTrim_self fs "dateOfBirth-day"
  have cmonth : fieldValue (bodyAfterYearSan (.vObj fs)) "dateOfBirth-month" =
      .vStr (jsTrim (evToString (fieldValue (.vObj fs) "dateOfBirth-month"))) := by
    rw [bodyAfterYearSan, hg2, fieldValue_applyTrim_ne g2 _ _ hmy, ← hg2,
      bodyAfterMonthSan, hg1, fieldValue_applyTrim_self g1]
    rw [← hg1, bodyAfterDaySan, fieldValue_applyTrim_ne fs _ _ hmd]
  have cyear : fieldValue (bodyAfterYearSan (.vObj fs)) "dateOfBirth-year" =
      .vStr (jsTrim (evToString (fieldValue (.vObj fs) "dateOfBirth-year"))) := by
    rw [bodyAfterYearSan, hg2, fieldValue_applyTrim_self g2]
    rw [← hg2, bodyAfterMonthSan, hg1, fieldValue_applyTrim_ne g1 _ _ hym, ← hg1,
      bodyAfterDaySan, fieldValue_applyTrim_ne fs _ _ hyd]
  rw [hg3] at cday cmonth cyear ⊢
  have hd := safeBodyString_of_str g3 "dateOfBirth-day" _ cday
  have hm := safeBodyString_of_str g3 "dateOfBirth-month" _ cmonth
  have hy := safeBodyString_of_str g3 "dateOfBirth-year" _ cyear
  simp [getDateFields, isRecord, hd, hm, hy]

/-- C10 counterexample: the extraction does yield "" for a numeric day,
but the running pipeline does NOT treat it as absent — the day chain's
trim sanitizer writes "5" back into the body before the month chain
runs, so the month requiredness rule fires; and an all-numeric invalid
date (29/2/1999) is skipped by the composite check on the raw body yet
reaches and fails the composite check in the sanitized pipeline. -/
theorem c10_sanitizer_counterexample :
    (getDateFields (.vObj [("dateOfBirth-day", .vNum 5)])).day = "" ∧
    monthFailuresSan (.vObj [("dateOfBirth-day", .vNum 5)]) =
      [{ path := some "dateOfBirth-month",
         msg := .typed (createDateValidationError "month" "notEmpty") }] ∧
    validDateCheck (.vObj [("dateOfBirth-day", .vNum 29), ("dateOfBirth-month", .vNum 2),
      ("dateOfBirth-year", .vNum 1999)]) = true ∧
    validDateFailuresSan (.vObj [("dateOfBirth-day", .vNum 29), ("dateOfBirth-month", .vNum 2),
      ("dateOfBirth-year", .vNum 1999)]) =
      [{ path := some "validDate", msg := .typed (personMsg "dateOfBirth" "validDate") }] := by
  refine ⟨by decide, by rfl, by decide, by rfl⟩

/-- C10 (amended): for a request body holding a non-string value under a
date sub-field key, the extraction itself (`safeBodyString` filtered by
`getDateFields`) yields the empty string for that component; but each
date chain's `trim: true` sanitizer stringifies the raw component and
writes it back to the body before the validators read it, so by the time
the sibling-requiredness rule and the composite valid-date check run the
component is its trimmed string coercion rather than absent: a numeric
day triggers a required failure for the missing month, and an
all-numeric invalid date reaches and fails the composite check. -/
theorem c10_nonstring_date_extraction :
    (∀ body : JSValue,
      (isStr (safeBodyString body "dateOfBirth-day") = false →
        (getDateFields body).day = "") ∧
      (isStr (safeBodyString body "dateOfBirth-month") = false →
        (getDateFields body).month = "") ∧
      (isStr (safeBodyString body "dateOfBirth-year") = false →
        (getDateFields body).year = "")) ∧
    (∀ fs : List (String × JSValue),
      getDateFields (bodyAfterYearSan (.vObj fs)) =
        ⟨jsTrim (evToString (fieldValue (.vObj fs) "dateOfBirth-day")),
         jsTrim (evToString (fieldValue (.vObj fs) "dateOfBirth-month")),
         jsTrim (evToString (fieldValue (.vObj fs) "dateOfBirth-year"))⟩) ∧
    (monthFailuresSan (.vObj [("dateOfBirth-day", .vNum 5)]) =
      [{ path := some "dateOfBirth-month",
         msg := .typed (createDateValidationError "month" "notEmpty") }]) ∧
    (validDateFailuresSan (.vObj [("dateOfBirth-day", .vNum 29), ("dateOfBirth-month", .vNum 2),
        ("dateOfBirth-year", .vNum 1999)]) =
      [{ path := some "validDate", msg := .typed (personMsg "dateOfBirth" "validDate") }]) := by
  refine ⟨fun body => ⟨fun h => ?_, fun h => ?_, fun h => ?_⟩,
    getDateFields_bodyAfterYearSan, by rfl, by rfl⟩
  · cases body with
    | vObj fs =>
      simp only [getDateFields, isRecord, Bool.not_true, Bool.false_eq_true, if_false]
      cases hv : safeBodyString (.vObj fs) "dateOfBirth-day" <;> simp_all [isStr]
    | vNull => rfl
    | vUndefined => rfl
    | vStr s => rfl
    | vNum n => rfl
    | vBool b => rfl
    | vArr xs => rfl
  · cases body with
    | vObj fs =>
      simp only [getDateFields, isRecord, Bool.not_true, Bool.false_eq_true, if_false]
      cases hv : safeBodyString (.vObj fs) "dateOfBirth-month" <;> simp_all [isStr]
    | vNull => rfl
    | vUndefined => rfl
    | vStr s => rfl
    | vNum n => rfl
    | vBool b => rfl
    | vArr xs => rfl
  · cases body with
    | vObj fs =>
      simp only [getDateFields, isRecord, Bool.not_true, Bool.false_eq_true, if_false]
      cases hv : safeBodyString (.vObj fs) "dateOfBirth-year" <;> simp_all [isStr]
    | vNull => rfl
    | vUndefined => rfl
    | vStr s => rfl
    | vNum n => rfl
    | vBool b => rfl
    | vArr xs => rfl

/-- C10 witness: the extraction clauses of the theorem applied to a
concrete body holding a number, a boolean and an array under the three
date keys. -/
theorem c10_nonstring_date_extraction_witness :
    (getDateFields (.vObj [("dateOfBirth-day", .vNum 5), ("dateOfBirth-month", .vBool true),
      ("dateOfBirth-year", .vArr [])])).day = "" ∧
    (getDateFields (.vObj [("dateOfBirth-day", .vNum 5), ("dateOfBirth-month", .vBool true),
      ("dateOfBirth-year", .vArr [])])).month = "" ∧
    (getDateFields (.vObj [("dateOfBirth-day", .vNum 5), ("dateOfBirth-month", .vBool true),
      ("dateOfBirth-year", .vArr [])])).year = "" := by
  refine ⟨(c10_nonstring_date_extraction.1 _).1 (by decide),
    (c10_nonstring_date_extraction.1 _).2.1 (by decide),
    (c10_nonstring_date_extraction.1 _).2.2 (by decide)⟩

/- ---------------------------------------------------------------------
   C3 — composite valid-date check trigger
   --------------------------------------------------------------------- -/

/-- C3 (amended): the composite valid-date check passes (is skipped)
whenever the body is not a record or any trimmed date component is empty;
once all three components are non-empty after trimming — regardless of
whether the per-component validations passed — it evaluates validator.js
`isDate` on the composed string, and when that is false it reports exactly
one "enter a real date" failure on the synthetic `validDate` field. -/
theorem c3_validDate_trigger :
    ∀ body : JSValue,
      (validDateCheck body =
        (!isRecord body ||
         ((jsTrim (getDateFields body).day).length == 0 ||
          (jsTrim (getDateFields body).month).length == 0 ||
          (jsTrim (getDateFields body).year).length == 0) ||
         jsIsDate (dateStringFromThreeFields (jsTrim (getDateFields body).day)
           (jsTrim (getDateFields body).month) (jsTrim (getDateFields body).year)))) ∧
      (validDateFailures body).length ≤ 1 ∧
      (validDateCheck body = false →
        validDateFailures body =
          [{ path := some "validDate", msg := .typed (personMsg "dateOfBirth" "validDate") }]) := by
  intro body
  refine ⟨?_, ?_, fun h => ?_⟩
  · cases body with
    | vObj fs =>
      simp only [validDateCheck, isRecord, Bool.not_true, Bool.false_or,
        Bool.false_eq_true, if_false]
      generalize ((jsTrim (getDateFields (vObj fs)).day).length == 0) = a
      generalize ((jsTrim (getDateFields (vObj fs)).month).length == 0) = b2
      generalize ((jsTrim (getDateFields (vObj fs)).year).length == 0) = c2
      cases a <;> cases b2 <;> cases c2 <;> simp
    | vNull => simp [validDateCheck, isRecord]
    | vUndefined => simp [validDateCheck, isRecord]
    | vStr s => simp [validDateCheck, isRecord]
    | vNum n => simp [validDateCheck, isRecord]
    | vBool b => simp [validDateCheck, isRecord]
    | vArr xs => simp [validDateCheck, isRecord]
  · unfold validDateFailures mkFailures
    split <;> simp
  · simp [validDateFailures, mkFailures, h]

/-- C3 counterexample: with day "32", month "1", year "1990" the day's
per-component validation fails, yet the composite check still runs and
reports its failure — refuting "the cross-component check runs only when
all three sub-fields have individually passed". -/
theorem c3_trigger_counterexample :
    validateDayField (.vStr "32") (dobBody "32" "1" "1990") = false ∧
    validDateCheck (dobBody "32" "1" "1990") = false ∧
    validDateFailures (dobBody "32" "1" "1990") =
      [{ path := some "validDate", msg := .typed (personMsg "dateOfBirth" "validDate") }] := by
  refine ⟨by decide, by decide, by rfl⟩

/-- C3 witness: the theorem applied to the concrete body 31/4/2000. -/
theorem c3_validDate_trigger_witness :
    validDateFailures (dobBody "31" "4" "2000") =
      [{ path := some "validDate", msg := .typed (personMsg "dateOfBirth" "validDate") }] := by
  exact (c3_validDate_trigger (dobBody "31" "4" "2000")).2.2 (by decide)

/- ---------------------------------------------------------------------
   C4 — per-component date rules
   --------------------------------------------------------------------- -/

/-- getDateFields on the canonical three-string body. -/
theorem getDateFields_dob (d m y : String) :
    getDateFields (dobBody d m y) = ⟨d, m, y⟩ := by
  simp [getDateFields, dobBody, isRecord, safeBodyString, lookupField]

/-- hasPartialDateFields on the canonical three-string body. -/
theorem hasPartial_dob (d m y : String) :
    hasPartialDateFields (dobBody d m y) = hasAnyDateField d m y := by
  have hr : isRecord (dobBody d m y) = true := rfl
  simp [hasPartialDateFields, hr, getDateFields_dob]

/-- fieldValue lookups on the canonical body. -/
theorem fieldValue_dob_day (d m y : String) :
    fieldValue (dobBody d m y) "dateOfBirth-day" = .vStr d := by
  simp [fieldValue, dobBody, lookupField]

theorem fieldValue_dob_month (d m y : String) :
    fieldValue (dobBody d m y) "dateOfBirth-month" = .vStr m := by
  simp [fieldValue, dobBody, lookupField]

theorem fieldValue_dob_year (d m y : String) :
    fieldValue (dobBody d m y) "dateOfBirth-year" = .vStr y := by
  simp [fieldValue, dobBody, lookupField]

/-- validateDayField against the spec rule. -/
theorem validateDayField_str (v : String) (b : JSValue) :
    validateDayField (.vStr v) b = (!hasPartialDateFields b || specDayRule v) := by
  by_cases hp : hasPartialDateFields b
  · by_cases h0 : jsTrim v = ""
    · have hs : specDayRule v = false := by unfold specDayRule; rw [h0]; decide
      simp [validateDayField, hp, h0, hs]
    · have hl : ((jsTrim v).length == 0) = false := by
        simp [str_length_zero_iff, h0]
      simp [validateDayField, specDayRule, hp, hl]
      cases hj : jsParseInt (jsTrim v) <;> simp [hj]
  · simp [validateDayField, hp]

/-- validateMonthField against the spec rule. -/
theorem validateMonthField_str (v : String) (b : JSValue) :
    validateMonthField (.vStr v) b = (!hasPartialDateFields b || specMonthRule v) := by
  by_cases hp : hasPartialDateFields b
  · by_cases h0 : jsTrim v = ""
    · have hs : specMonthRule v = false := by unfold specMonthRule; rw [h0]; decide
      simp [validateMonthField, hp, h0, hs]
    · have hl : ((jsTrim v).length == 0) = false := by
        simp [str_length_zero_iff, h0]
      simp [validateMonthField, specMonthRule, hp, hl]
      cases hj : jsParseInt (jsTrim v) <;> simp [hj]
  · simp [validateMonthField, hp]

/-- validateYearField against the spec rule. -/
theorem validateYearField_str (v : String) (b : JSValue) :
    validateYearField (.vStr v) b = (!hasPartialDateFields b || specYearRule v) := by
  by_cases hp : hasPartialDateFields b
  · by_cases h0 : jsTrim v = ""
    · have hs : specYearRule v = false := by unfold specYearRule; rw [h0]; decide
      simp [validateYearField, hp, h0, hs]
    · have hl : ((jsTrim v).length == 0) = false := by
        simp [str_length_zero_iff, h0]
      simp [validateYearField, specYearRule, hp, hl]
      by_cases h4 : (jsTrim v).length = 4 <;> simp [h4]
  · simp [validateYearField, hp]

/-- C4: on a submission carrying the three date sub-fields as strings —
(1) if all three are empty after trimming, none of the four date-related
chains produces a failure; (2) if at least one is non-empty, each
trim-empty sub-field produces exactly the `notEmpty` (required-class)
failure and the composite valid-date chain produces nothing as long as a
sub-field is missing; (3) the per-component validators agree with the
spec rules: a present day must parse (JavaScript `parseInt`) to an
integer in [1, 31], a month to [1, 12], and a year must be exactly four
characters and parse as an integer with no further range check. -/
theorem c4_date_group_rules :
    ∀ d m y : String,
      ((jsTrim d = "" ∧ jsTrim m = "" ∧ jsTrim y = "") →
        (dayFailures (dobBody d m y) = [] ∧ monthFailures (dobBody d m y) = [] ∧
         yearFailures (dobBody d m y) = [] ∧ validDateFailures (dobBody d m y) = [])) ∧
      (hasPartialDateFields (dobBody d m y) = true →
        ((jsTrim d = "" → dayFailures (dobBody d m y) =
            [{ path := some "dateOfBirth-day",
               msg := .typed (createDateValidationError "day" "notEmpty") }]) ∧
         (jsTrim m = "" → monthFailures (dobBody d m y) =
            [{ path := some "dateOfBirth-month",
               msg := .typed (createDateValidationError "month" "notEmpty") }]) ∧
         (jsTrim y = "" → yearFailures (dobBody d m y) =
            [{ path := some "dateOfBirth-year",
               msg := .typed (createDateValidationError "year" "notEmpty") }]) ∧
         ((jsTrim d = "" ∨ jsTrim m = "" ∨ jsTrim y = "") →
            validDateFailures (dobBody d m y) = []))) ∧
      (∀ body : JSValue, validateDayField (.vStr d) body =
         (!hasPartialDateFields body || specDayRule d)) ∧
      (∀ body : JSValue, validateMonthField (.vStr m) body =
         (!hasPartialDateFields body || specMonthRule m)) ∧
      (∀ body : JSValue, validateYearField (.vStr y) body =
         (!hasPartialDateFields body || specYearRule y)) := by
  intro d m y
  have hr : isRecord (dobBody d m y) = true := rfl
  refine ⟨?_, ?_, fun body => validateDayField_str d body,
    fun body => validateMonthField_str m body, fun body => validateYearField_str y body⟩
  · rintro ⟨hd, hm, hy⟩
    have hp : hasPartialDateFields (dobBody d m y) = false := by
      rw [hasPartial_dob]; simp [hasAnyDateField, hd, hm, hy]
    refine ⟨?_, ?_, ?_, ?_⟩
    · simp [dayFailures, mkFailures, validateDayField, hp]
    · simp [monthFailures, mkFailures, validateMonthField, hp]
    · simp [yearFailures, mkFailures, validateYearField, hp]
    · simp [validDateFailures, mkFailures, validDateCheck, hr, getDateFields_dob, hd, hm, hy]
  · intro hp
    have hp2 : hasAnyDateField d m y = true := by rw [← hasPartial_dob]; exact hp
    have hsd : specDayRule "" = false := by decide
    have hsm : specMonthRule "" = false := by decide
    have hsy : specYearRule "" = false := by decide
    have hz : (jsTrim "").length = 0 := by decide
    refine ⟨fun hd => ?_, fun hm => ?_, fun hy => ?_, fun hor => ?_⟩
    · simp [dayFailures, fieldValue_dob_day, evToString_vStr, hd, mkFailures,
        validateDayField_str, hp, hsd, dayErrorMessage, hr, getDateFields_dob, hp2, hz]
    · simp [monthFailures, fieldValue_dob_month, evToString_vStr, hm, mkFailures,
        validateMonthField_str, hp, hsm, monthErrorMessage, hr, getDateFields_dob, hp2, hz]
    · simp [yearFailures, fieldValue_dob_year, evToString_vStr, hy, mkFailures,
        validateYearField_str, hp, hsy, yearErrorMessage, hr, getDateFields_dob, hp2, hz]
    · rcases hor with hone | hone | hone <;>
        simp [validDateFailures, mkFailures, validDateCheck, hr, getDateFields_dob, hone]

/-- C4 witness: the theorem applied to the all-empty submission, to a
submission with only the day filled, and to one with only the month
filled, discharging each hypothesis at a concrete input. -/
theorem c4_date_group_rules_witness :
    (dayFailures (dobBody "" "" "") = [] ∧ monthFailures (dobBody "" "" "") = [] ∧
     yearFailures (dobBody "" "" "") = [] ∧ validDateFailures (dobBody "" "" "") = []) ∧
    (monthFailures (dobBody "3" "" "") =
      [{ path := some "dateOfBirth-month",
         msg := .typed (createDateValidationError "month" "notEmpty") }]) ∧
    (yearFailures (dobBody "3" "" "") =
      [{ path := some "dateOfBirth-year",
         msg := .typed (createDateValidationError "year" "notEmpty") }]) ∧
    (validDateFailures (dobBody "3" "" "") = []) ∧
    (dayFailures (dobBody "" "5" "") =
      [{ path := some "dateOfBirth-day",
         msg := .typed (createDateValidationError "day" "notEmpty") }]) ∧
    validateDayField (.vStr "07") (dobBody "07" "" "") =
      (!hasPartialDateFields (dobBody "07" "" "") || specDayRule "07") := by
  refine ⟨(c4_date_group_rules "" "" "").1 ⟨rfl, rfl, rfl⟩,
    ((c4_date_group_rules "3" "" "").2.1 (by decide)).2.1 rfl,
    ((c4_date_group_rules "3" "" "").2.1 (by decide)).2.2.1 rfl,
    ((c4_date_group_rules "3" "" "").2.1 (by decide)).2.2.2 (Or.inr (Or.inl rfl)),
    ((c4_date_group_rules "" "5" "").2.1 (by decide)).1 rfl,
    ((c4_date_group_rules "07" "" "").2.2.1 (dobBody "07" "" ""))⟩

/- ---------------------------------------------------------------------
   C1 — formatValidationErrors invariants
   --------------------------------------------------------------------- -/

/-- Replacing the value at key `k` preserves key membership. -/
theorem containsKey_map_replace (k v f : String) (m : List (String × String)) :
    containsKey (m.map (fun p => if p.1 == k then (k, v) else p)) f = containsKey m f := by
  induction m with
  | nil => rfl
  | cons p m ih =>
    by_cases h : p.1 = k
    · simp [containsKey, List.any_cons, h] at ih ⊢
      rw [ih]
    · simp [containsKey, List.any_cons, h] at ih ⊢
      rw [ih]

/-- Key membership after a JavaScript object assignment. -/
theorem containsKey_objSet (m : List (String × String)) (k v f : String) :
    containsKey (objSet m k v) f = (containsKey m f || k == f) := by
  unfold objSet
  split
  · next hmem =>
    rw [containsKey_map_replace]
    by_cases hkf : k = f
    · subst hkf
      have : containsKey m k = true := hmem
      simp [this]
    · simp [hkf]
  · simp [containsKey, List.any_append]

/-- Key membership of the inline-error accumulator. -/
theorem containsKey_build (items : List (String × ValidationErrorData))
    (acc : List (String × String)) (f : String) :
    containsKey (items.foldl
      (fun errors item =>
        if jsTrim item.2.inlineMessage != "" then objSet errors item.1 item.2.inlineMessage
        else errors) acc) f =
    (containsKey acc f ||
      items.any (fun it => it.1 == f && jsTrim it.2.inlineMessage != "")) := by
  induction items generalizing acc with
  | nil => simp
  | cons it items ih =>
    rw [List.foldl_cons]
    by_cases h : jsTrim it.2.inlineMessage = ""
    · rw [show (if (jsTrim it.2.inlineMessage != "") = true
          then objSet acc it.1 it.2.inlineMessage else acc) = acc from by simp [h]]
      rw [ih]
      simp [h]
    · rw [show (if (jsTrim it.2.inlineMessage != "") = true
          then objSet acc it.1 it.2.inlineMessage else acc) =
          objSet acc it.1 it.2.inlineMessage from by simp [h]]
      rw [ih, containsKey_objSet]
      simp [show (jsTrim it.2.inlineMessage != "") = true from by simp [h], Bool.or_assoc]

/-- C1 (amended): `formatValidationErrors` emits exactly one summary-list
entry per validation failure (none is dropped), and the inline-error map
contains a key exactly when some failure with that field name has an
inline message that is non-empty after trimming — so an entry is omitted
exactly when every such failure's inline message is empty or
whitespace-only, not only when it is the empty string. -/
theorem c1_formatAll_complete :
    ∀ rawErrors : List VError,
      (formatValidationErrors rawErrors).errorSummaryList.length = rawErrors.length ∧
      ∀ f : String,
        containsKey (formatValidationErrors rawErrors).inputErrors f =
          rawErrors.any (fun e => errFieldName e == f &&
            jsTrim (formatValidationError e).inlineMessage != "") := by
  intro rawErrors
  constructor
  · simp [formatValidationErrors]
  · intro f
    rw [show (formatValidationErrors rawErrors).inputErrors =
      (rawErrors.map (fun e => (errFieldName e, formatValidationError e))).foldl
        (fun errors item =>
          if jsTrim item.2.inlineMessage != "" then objSet errors item.1 item.2.inlineMessage
          else errors) [] from rfl]
    rw [containsKey_build]
    simp only [containsKey, List.any_nil, Bool.false_or]
    induction rawErrors with
    | nil => rfl
    | cons e es ih => simp only [List.map_cons, List.any_cons, ih]

/-- C1 counterexample: a failure whose inline message is the whitespace
string " " is omitted from the inline-error map although its message is
not the empty string (its summary entry is still present) — refuting
"omitted exactly when the inline message is the empty string". -/
theorem c1_whitespace_counterexample :
    containsKey (formatValidationErrors
      [{ path := some "a", msg := ErrMsg.typed ⟨"s", " "⟩ }]).inputErrors "a" = false ∧
    (formatValidationError { path := some "a", msg := ErrMsg.typed ⟨"s", " "⟩ }).inlineMessage ≠ "" ∧
    (formatValidationErrors
      [{ path := some "a", msg := ErrMsg.typed ⟨"s", " "⟩ }]).errorSummaryList.length = 1 := by
  refine ⟨by decide, by decide, by decide⟩

/- ---------------------------------------------------------------------
   C9 — failure ordering
   --------------------------------------------------------------------- -/

/-- Every failure produced by a single validator outcome carries its
field name. -/
theorem mem_mkFailures_name {n : String} {ok : Bool} {d : ValidationErrorData} {e : VError}
    (he : e ∈ mkFailures n ok d) : errFieldName e = n := by
  unfold mkFailures at he
  split at he
  · simp at he
  · simp at he
    subst he
    rfl

theorem fullNameFailures_name {body : JSValue} {e : VError}
    (he : e ∈ fullNameFailures body) : errFieldName e = "fullName" := by
  simp only [fullNameFailures] at he
  exact mem_mkFailures_name he

theorem addressFailures_name {body : JSValue} {e : VError}
    (he : e ∈ addressFailures body) : errFieldName e = "address" := by
  simp only [addressFailures] at he
  exact mem_mkFailures_name he

theorem contactPreferenceFailures_name {body session : JSValue} {e : VError}
    (he : e ∈ contactPreferenceFailures body session) :
    errFieldName e = "contactPreference" := by
  simp only [contactPreferenceFailures, List.mem_append] at he
  rcases he with (he | he) | he <;> exact mem_mkFailures_name he

theorem priorityFailures_name {body session : JSValue} {e : VError}
    (he : e ∈ priorityFailures body session) : errFieldName e = "priority" := by
  simp only [priorityFailures, List.mem_append] at he
  rcases he with (he | he) | he <;> exact mem_mkFailures_name he

theorem communicationMethodsFailures_name {body : JSValue} {e : VError}
    (he : e ∈ communicationMethodsFailures body) :
    errFieldName e = "communicationMethods" := by
  simp only [communicationMethodsFailures] at he
  exact mem_mkFailures_name he

theorem dayFailures_name {body : JSValue} {e : VError}
    (he : e ∈ dayFailures body) : errFieldName e = "dateOfBirth-day" := by
  simp only [dayFailures] at he
  exact mem_mkFailures_name he

theorem monthFailures_name {body : JSValue} {e : VError}
    (he : e ∈ monthFailures body) : errFieldName e = "dateOfBirth-month" := by
  simp only [monthFailures] at he
  exact mem_mkFailures_name he

theorem yearFailures_name {body : JSValue} {e : VError}
    (he : e ∈ yearFailures body) : errFieldName e = "dateOfBirth-year" := by
  simp only [yearFailures] at he
  exact mem_mkFailures_name he

theorem validDateFailures_name {body : JSValue} {e : VError}
    (he : e ∈ validDateFailures body) : errFieldName e = "validDate" := by
  simp only [validDateFailures] at he
  exact mem_mkFailures_name he

/-- A list all of whose member pairs are related is pairwise related. -/
theorem pairwise_of_mem {α : Type _} {r : α → α → Prop} :
    ∀ {l : List α}, (∀ a ∈ l, ∀ b ∈ l, r a b) → l.Pairwise r := by
  intro l
  induction l with
  | nil => intro _; exact List.Pairwise.nil
  | cons x xs ih =>
    intro h
    exact List.Pairwise.cons (fun y hy => h x (by simp) y (by simp [hy]))
      (ih (fun a ha b hb => h a (by simp [ha]) b (by simp [hb])))

/-- Joining name-tagged failure blocks whose tags are ordered yields an
ordered failure list. -/
theorem pairwise_field_blocks :
    ∀ blocks : List (String × List VError),
      (∀ b ∈ blocks, ∀ e ∈ b.2, errFieldName e = b.1) →
      List.Pairwise (fun x y : String × List VError => fieldIdx x.1 ≤ fieldIdx y.1) blocks →
      List.Pairwise (fun a b : VError => fieldIdx (errFieldName a) ≤ fieldIdx (errFieldName b))
        ((blocks.map (fun b => b.2)).flatten) := by
  intro blocks
  induction blocks with
  | nil => intro _ _; simp
  | cons blk bs ih =>
    intro hnames hord
    simp only [List.map_cons, List.flatten_cons]
    rw [List.pairwise_append]
    rcases hord with _ | ⟨hhead, htail⟩
    refine ⟨?_, ih (fun b hb => hnames b (by simp [hb])) htail, ?_⟩
    · have hn := hnames blk (by simp)
      exact pairwise_of_mem (fun a ha b hb => by rw [hn a ha, hn b hb])
    · intro a ha b hb
      rw [List.mem_flatten] at hb
      rcases hb with ⟨l, hl, hbl⟩
      rw [List.mem_map] at hl
      rcases hl with ⟨blk2, hblk2, rfl⟩
      rw [hnames blk (by simp) a ha, hnames blk2 (by simp [hblk2]) b hbl]
      exact hhead blk2 hblk2

/-- C9: for every submission and session, the failures collected by the
`validatePerson` schema carry field names drawn from the declaration
order (fullName, address, contactPreference, priority,
communicationMethods, dateOfBirth-day, dateOfBirth-month,
dateOfBirth-year, validDate) and appear sorted by position in that order;
the pipeline is a pure function of body and session, so the order is
reproducible. -/
theorem c9_failure_order :
    ∀ body session : JSValue,
      List.Pairwise (fun a b : VError => fieldIdx (errFieldName a) ≤ fieldIdx (errFieldName b))
        (validatePersonFailures body session) ∧
      (validatePersonFailures body session).all
        (fun e => fieldDeclOrder.contains (errFieldName e)) = true := by
  intro body session
  have hjoin : validatePersonFailures body session =
      (([("fullName", fullNameFailures body),
         ("address", addressFailures body),
         ("contactPreference", contactPreferenceFailures body session),
         ("priority", priorityFailures body session),
         ("communicationMethods", communicationMethodsFailures body),
         ("dateOfBirth-day", dayFailures body),
         ("dateOfBirth-month", monthFailures body),
         ("dateOfBirth-year", yearFailures body),
         ("validDate", validDateFailures body)] :
        List (String × List VError)).map (fun b => b.2)).flatten := by
    simp [validatePersonFailures, List.flatten]
  constructor
  · rw [hjoin]
    apply pairwise_field_blocks
    · intro b hb e he
      simp only [List.mem_cons, List.not_mem_nil, or_false] at hb
      rcases hb with rfl | rfl | rfl | rfl | rfl | rfl | rfl | rfl | rfl
      · exact fullNameFailures_name he
      · exact addressFailures_name he
      · exact contactPreferenceFailures_name he
      · exact priorityFailures_name he
      · exact communicationMethodsFailures_name he
      · exact dayFailures_name he
      · exact monthFailures_name he
      · exact yearFailures_name he
      · exact validDateFailures_name he
    · simp only [List.pairwise_cons, List.forall_mem_cons, List.not_mem_nil, false_implies,
        implies_true, and_true]
      exact ⟨by decide, by decide, by decide, by decide, by decide, by decide, by decide,
        by decide, trivial, List.Pairwise.nil⟩
  · rw [hjoin, List.all_eq_true]
    intro e he
    rw [List.mem_flatten] at he
    rcases he with ⟨l, hl, hel⟩
    rw [List.mem_map] at hl
    rcases hl with ⟨blk, hblk, rfl⟩
    simp only [List.mem_cons, List.not_mem_nil, or_false] at hblk
    rcases hblk with rfl | rfl | rfl | rfl | rfl | rfl | rfl | rfl | rfl
    · rw [fullNameFailures_name hel]; decide
    · rw [addressFailures_name hel]; decide
    · rw [contactPreferenceFailures_name hel]; decide
    · rw [priorityFailures_name hel]; decide
    · rw [communicationMethodsFailures_name hel]; decide
    · rw [dayFailures_name hel]; decide
    · rw [monthFailures_name hel]; decide
    · rw [yearFailures_name hel]; decide
    · rw [validDateFailures_name hel]; decide
